import Mathlib

/-!
# Verification of `speech_enhancer.py`

A shallow embedding of the data pairing, sample aggregation, prediction loop,
normalization caching, prediction storage, and path-derivation logic of
`speech_enhancer.py`, together with theorems settling the specification claims.

Modelling conventions:
* numpy arrays are Lean `List`s; the leading (sample) dimension is the list
  index, and per-sample payloads are opaque type parameters;
* randomness (`np.random.permutation`, dataset shuffling) is externalized:
  every random draw is an explicit argument, constrained in the theorems to be
  a permutation of the index range;
* the file system is an explicit record of directories and files; paths are
  lists of path segments;
* fallible operations return `Except`/`Option`.
-/

deriving instance DecidableEq for Except

namespace SpeechEnhancer

/-- Python `l[:max_samples]`: with `None` the whole list, otherwise `take k`. -/
def truncOpt (l : List α) : Option Nat → List α
  | none => l
  | some k => l.take k

/-- numpy fancy indexing `arr[idx]` for an index array `idx`
(total via a default; theorems restrict indices to be in range). -/
def fancyIndex [Inhabited α] (l : List α) (idx : List Nat) : List α :=
  idx.map (fun i => l.getD i default)

/-- One preprocessed `.npz` blob: the four parallel arrays
`video_samples`, `mixed_spectrograms`, `speech_spectrograms`,
`noise_spectrograms` (source: `preprocess`, lines 28-34; consumed in
`load_preprocessed_samples`, lines 46-50). -/
structure Blob (α β γ δ : Type) where
  video_samples : List α
  mixed_spectrograms : List β
  speech_spectrograms : List γ
  noise_spectrograms : List δ
deriving DecidableEq

instance : Inhabited (Blob α β γ δ) := ⟨⟨[], [], [], []⟩⟩

/-- Embedding of `load_preprocessed_samples` (lines 37-68): load every blob, concatenate
the four kinds in input order, apply the single random `permutation` (the
draw `np.random.permutation(video_samples.shape[0])` of line 57, passed here
explicitly) identically to all four arrays, then slice each by
`max_samples`. -/
def load_preprocessed_samples [Inhabited α] [Inhabited β] [Inhabited γ] [Inhabited δ]
    (blobs : List (Blob α β γ δ)) (permutation : List Nat) (max_samples : Option Nat) :
    List α × List β × List γ × List δ :=
  let video_samples := (blobs.map Blob.video_samples).flatten
  let mixed_spectrograms := (blobs.map Blob.mixed_spectrograms).flatten
  let speech_spectrograms := (blobs.map Blob.speech_spectrograms).flatten
  let noise_spectrograms := (blobs.map Blob.noise_spectrograms).flatten
  ( truncOpt (fancyIndex video_samples permutation) max_samples,
    truncOpt (fancyIndex mixed_spectrograms permutation) max_samples,
    truncOpt (fancyIndex speech_spectrograms permutation) max_samples,
    truncOpt (fancyIndex noise_spectrograms permutation) max_samples )

/-- Decode a flat index of a concatenation into an (archive, row) origin pair,
given the list of per-archive lengths. -/
def flatOrigin : List Nat → Nat → Nat × Nat
  | [], j => (0, j)
  | n :: ns, j =>
    if j < n then (0, j)
    else
      let p := flatOrigin ns (j - n)
      (p.1 + 1, p.2)

theorem flatOrigin_spec [Inhabited α] (ls : List (List α)) (j : Nat)
    (hj : j < (ls.map List.length).sum) :
    (flatOrigin (ls.map List.length) j).1 < ls.length ∧
    (flatOrigin (ls.map List.length) j).2 <
      (ls.getD (flatOrigin (ls.map List.length) j).1 []).length ∧
    ls.flatten.getD j default =
      (ls.getD (flatOrigin (ls.map List.length) j).1 []).getD
        (flatOrigin (ls.map List.length) j).2 default := by
  induction ls generalizing j with
  | nil => simp at hj
  | cons l ls ih =>
    by_cases h : j < l.length
    · refine ⟨by simp [flatOrigin, h], by simp [flatOrigin, h], ?_⟩
      simp only [flatOrigin, List.map_cons, if_pos h]
      simp [List.flatten_cons, List.getD_eq_getElem?_getD, List.getElem?_append, h]
    · have hj' : j - l.length < (ls.map List.length).sum := by
        simp only [List.map_cons, List.sum_cons] at hj
        omega
      obtain ⟨ih1, ih2, ih3⟩ := ih (j - l.length) hj'
      refine ⟨?_, ?_, ?_⟩
      · simp only [flatOrigin, List.map_cons, if_neg h]
        simpa using ih1
      · simp only [flatOrigin, List.map_cons, if_neg h]
        simpa using ih2
      · simp only [flatOrigin, List.map_cons, if_neg h]
        have : (l :: ls).flatten.getD j default = ls.flatten.getD (j - l.length) default := by
          simp [List.flatten_cons, List.getD_eq_getElem?_getD, List.getElem?_append, h]
        rw [this, ih3]
        simp

theorem fancyIndex_length [Inhabited α] (l : List α) (idx : List Nat) :
    (fancyIndex l idx).length = idx.length := by
  simp [fancyIndex]

theorem fancyIndex_getD [Inhabited α] (l : List α) (idx : List Nat) (i : Nat)
    (h : i < idx.length) :
    (fancyIndex l idx).getD i default = l.getD (idx.getD i 0) default := by
  unfold fancyIndex
  rw [List.getD_eq_getElem _ _ (by simpa using h), List.getElem_map,
    List.getD_eq_getElem _ 0 h]

theorem perm_getD_lt (p : List Nat) (N : Nat) (hp : p.Perm (List.range N))
    (i : Nat) (hi : i < N) : p.getD i 0 < N := by
  have hl : p.length = N := by simpa using hp.length_eq
  have hmem : p.getD i 0 ∈ p := by
    rw [List.getD_eq_getElem _ _ (by omega)]
    exact List.getElem_mem _
  have := hp.mem_iff.mp hmem
  simpa using this

theorem getD_map_proj {α β γ δ : Type} {X : Type} (blobs : List (Blob α β γ δ))
    (f : Blob α β γ δ → List X) (a : Nat) (ha : a < blobs.length) :
    (blobs.map f).getD a [] = f (blobs.getD a default) := by
  rw [List.getD_eq_getElem _ _ (by simpa using ha), List.getElem_map,
    List.getD_eq_getElem _ _ ha]

theorem load_kind_align [Inhabited X] (ls : List (List X)) (permutation : List Nat)
    (N : Nat) (hlen : (ls.map List.length).sum = N)
    (hperm : permutation.Perm (List.range N)) (i : Nat) (hi : i < N) :
    (flatOrigin (ls.map List.length) (permutation.getD i 0)).1 < ls.length ∧
    (flatOrigin (ls.map List.length) (permutation.getD i 0)).2 <
      (ls.getD (flatOrigin (ls.map List.length) (permutation.getD i 0)).1 []).length ∧
    (fancyIndex ls.flatten permutation).getD i default =
      (ls.getD (flatOrigin (ls.map List.length) (permutation.getD i 0)).1 []).getD
        (flatOrigin (ls.map List.length) (permutation.getD i 0)).2 default := by
  have hlenp : permutation.length = N := by simpa using hperm.length_eq
  have hj : permutation.getD i 0 < N := perm_getD_lt permutation N hperm i hi
  obtain ⟨h1, h2, h3⟩ := flatOrigin_spec ls (permutation.getD i 0) (by omega)
  exact ⟨h1, h2, by rw [fancyIndex_getD _ _ _ (by omega)]; exact h3⟩

theorem load_none_align {α β γ δ : Type}
    [Inhabited α] [Inhabited β] [Inhabited γ] [Inhabited δ]
    (blobs : List (Blob α β γ δ)) (permutation : List Nat)
    (hwf : ∀ b ∈ blobs, b.mixed_spectrograms.length = b.video_samples.length ∧
        b.speech_spectrograms.length = b.video_samples.length ∧
        b.noise_spectrograms.length = b.video_samples.length)
    (hperm : permutation.Perm
      (List.range ((blobs.map (fun b => b.video_samples.length)).sum))) :
    ∀ i, i < (blobs.map (fun b => b.video_samples.length)).sum →
      ∃ a r, a < blobs.length ∧ r < (blobs.getD a default).video_samples.length ∧
        (load_preprocessed_samples blobs permutation none).1.getD i default =
          (blobs.getD a default).video_samples.getD r default ∧
        (load_preprocessed_samples blobs permutation none).2.1.getD i default =
          (blobs.getD a default).mixed_spectrograms.getD r default ∧
        (load_preprocessed_samples blobs permutation none).2.2.1.getD i default =
          (blobs.getD a default).speech_spectrograms.getD r default ∧
        (load_preprocessed_samples blobs permutation none).2.2.2.getD i default =
          (blobs.getD a default).noise_spectrograms.getD r default := by
  have hmapV : ((blobs.map Blob.video_samples).map List.length) =
      blobs.map (fun b => b.video_samples.length) := by
    rw [List.map_map]; rfl
  have hmapM : ((blobs.map Blob.mixed_spectrograms).map List.length) =
      blobs.map (fun b => b.video_samples.length) := by
    rw [List.map_map]
    exact List.map_congr_left (fun b hb => (hwf b hb).1)
  have hmapS : ((blobs.map Blob.speech_spectrograms).map List.length) =
      blobs.map (fun b => b.video_samples.length) := by
    rw [List.map_map]
    exact List.map_congr_left (fun b hb => (hwf b hb).2.1)
  have hmapN : ((blobs.map Blob.noise_spectrograms).map List.length) =
      blobs.map (fun b => b.video_samples.length) := by
    rw [List.map_map]
    exact List.map_congr_left (fun b hb => (hwf b hb).2.2)
  intro i hi
  obtain ⟨haV, hrV, hvV⟩ := load_kind_align (blobs.map Blob.video_samples)
    permutation _ (by rw [hmapV]) hperm i hi
  obtain ⟨haM, hrM, hvM⟩ := load_kind_align (blobs.map Blob.mixed_spectrograms)
    permutation _ (by rw [hmapM]) hperm i hi
  obtain ⟨haS, hrS, hvS⟩ := load_kind_align (blobs.map Blob.speech_spectrograms)
    permutation _ (by rw [hmapS]) hperm i hi
  obtain ⟨haN, hrN, hvN⟩ := load_kind_align (blobs.map Blob.noise_spectrograms)
    permutation _ (by rw [hmapN]) hperm i hi
  rw [hmapV] at haV hrV hvV
  rw [hmapM] at haM hrM hvM
  rw [hmapS] at haS hrS hvS
  rw [hmapN] at haN hrN hvN
  simp only [List.length_map] at haV haM haS haN
  refine ⟨(flatOrigin (blobs.map (fun b => b.video_samples.length))
    (permutation.getD i 0)).1,
    (flatOrigin (blobs.map (fun b => b.video_samples.length))
    (permutation.getD i 0)).2, haV, ?_, ?_, ?_, ?_, ?_⟩
  · rw [getD_map_proj blobs Blob.video_samples _ haV] at hrV
    exact hrV
  · rw [getD_map_proj blobs Blob.video_samples _ haV] at hvV
    simpa [load_preprocessed_samples, truncOpt] using hvV
  · rw [getD_map_proj blobs Blob.mixed_spectrograms _ haM] at hvM
    simpa [load_preprocessed_samples, truncOpt] using hvM
  · rw [getD_map_proj blobs Blob.speech_spectrograms _ haS] at hvS
    simpa [load_preprocessed_samples, truncOpt] using hvS
  · rw [getD_map_proj blobs Blob.noise_spectrograms _ haN] at hvN
    simpa [load_preprocessed_samples, truncOpt] using hvN

theorem load_none_lengths {α β γ δ : Type}
    [Inhabited α] [Inhabited β] [Inhabited γ] [Inhabited δ]
    (blobs : List (Blob α β γ δ)) (permutation : List Nat)
    (hperm : permutation.Perm
      (List.range ((blobs.map (fun b => b.video_samples.length)).sum))) :
    (load_preprocessed_samples blobs permutation none).1.length =
        (blobs.map (fun b => b.video_samples.length)).sum ∧
      (load_preprocessed_samples blobs permutation none).2.1.length =
        (blobs.map (fun b => b.video_samples.length)).sum ∧
      (load_preprocessed_samples blobs permutation none).2.2.1.length =
        (blobs.map (fun b => b.video_samples.length)).sum ∧
      (load_preprocessed_samples blobs permutation none).2.2.2.length =
        (blobs.map (fun b => b.video_samples.length)).sum := by
  have hlenp : permutation.length =
      (blobs.map (fun b => b.video_samples.length)).sum := by
    simpa using hperm.length_eq
  simp [load_preprocessed_samples, truncOpt, fancyIndex_length, hlenp]

/-- C1: for every ordered list of blobs holding the four named arrays with
sample counts n_1..n_k and any permutation draw of the full concatenated
count, `load_preprocessed_samples` (with no truncation) returns four arrays
each with exactly n_1+...+n_k samples, concatenated in input order with one
single permutation applied identically to all four, so that the four entries
at every result index originate from the same (archive, row) pair. -/
theorem C1_load_concat_alignment {α β γ δ : Type}
    [Inhabited α] [Inhabited β] [Inhabited γ] [Inhabited δ]
    (blobs : List (Blob α β γ δ)) (permutation : List Nat)
    (hwf : ∀ b ∈ blobs, b.mixed_spectrograms.length = b.video_samples.length ∧
        b.speech_spectrograms.length = b.video_samples.length ∧
        b.noise_spectrograms.length = b.video_samples.length)
    (hperm : permutation.Perm
      (List.range ((blobs.map (fun b => b.video_samples.length)).sum))) :
    ((load_preprocessed_samples blobs permutation none).1.length =
        (blobs.map (fun b => b.video_samples.length)).sum ∧
      (load_preprocessed_samples blobs permutation none).2.1.length =
        (blobs.map (fun b => b.video_samples.length)).sum ∧
      (load_preprocessed_samples blobs permutation none).2.2.1.length =
        (blobs.map (fun b => b.video_samples.length)).sum ∧
      (load_preprocessed_samples blobs permutation none).2.2.2.length =
        (blobs.map (fun b => b.video_samples.length)).sum) ∧
    ∀ i, i < (blobs.map (fun b => b.video_samples.length)).sum →
      ∃ a r, a < blobs.length ∧ r < (blobs.getD a default).video_samples.length ∧
        (load_preprocessed_samples blobs permutation none).1.getD i default =
          (blobs.getD a default).video_samples.getD r default ∧
        (load_preprocessed_samples blobs permutation none).2.1.getD i default =
          (blobs.getD a default).mixed_spectrograms.getD r default ∧
        (load_preprocessed_samples blobs permutation none).2.2.1.getD i default =
          (blobs.getD a default).speech_spectrograms.getD r default ∧
        (load_preprocessed_samples blobs permutation none).2.2.2.getD i default =
          (blobs.getD a default).noise_spectrograms.getD r default :=
  ⟨load_none_lengths blobs permutation hperm,
   load_none_align blobs permutation hwf hperm⟩

/-- Concrete two-archive input used to instantiate the aggregator theorems. -/
def blobsW : List (Blob Nat Nat Nat Nat) :=
  [⟨[10, 11], [20, 21], [30, 31], [40, 41]⟩, ⟨[12], [22], [32], [42]⟩]

theorem C1_load_concat_alignment_witness :
    (∀ b ∈ blobsW, b.mixed_spectrograms.length = b.video_samples.length ∧
        b.speech_spectrograms.length = b.video_samples.length ∧
        b.noise_spectrograms.length = b.video_samples.length) ∧
    List.Perm [2, 0, 1]
      (List.range ((blobsW.map (fun b => b.video_samples.length)).sum)) ∧
    (((load_preprocessed_samples blobsW [2, 0, 1] none).1.length =
        (blobsW.map (fun b => b.video_samples.length)).sum ∧
      (load_preprocessed_samples blobsW [2, 0, 1] none).2.1.length =
        (blobsW.map (fun b => b.video_samples.length)).sum ∧
      (load_preprocessed_samples blobsW [2, 0, 1] none).2.2.1.length =
        (blobsW.map (fun b => b.video_samples.length)).sum ∧
      (load_preprocessed_samples blobsW [2, 0, 1] none).2.2.2.length =
        (blobsW.map (fun b => b.video_samples.length)).sum) ∧
    ∀ i, i < (blobsW.map (fun b => b.video_samples.length)).sum →
      ∃ a r, a < blobsW.length ∧ r < (blobsW.getD a default).video_samples.length ∧
        (load_preprocessed_samples blobsW [2, 0, 1] none).1.getD i default =
          (blobsW.getD a default).video_samples.getD r default ∧
        (load_preprocessed_samples blobsW [2, 0, 1] none).2.1.getD i default =
          (blobsW.getD a default).mixed_spectrograms.getD r default ∧
        (load_preprocessed_samples blobsW [2, 0, 1] none).2.2.1.getD i default =
          (blobsW.getD a default).speech_spectrograms.getD r default ∧
        (load_preprocessed_samples blobsW [2, 0, 1] none).2.2.2.getD i default =
          (blobsW.getD a default).noise_spectrograms.getD r default) :=
  ⟨by decide, by decide,
   C1_load_concat_alignment blobsW [2, 0, 1] (by decide) (by decide)⟩

theorem getD_take_of_lt (l : List α) (k i : Nat) (d : α) (h : i < k) :
    (l.take k).getD i d = l.getD i d := by
  simp [List.getD_eq_getElem?_getD, List.getElem?_take, h]

/-- C5: with `max_samples = k` (k at most the total concatenated count),
`load_preprocessed_samples` returns exactly k samples per array; the
truncation is applied after the shuffle (each output is the length-k prefix,
hence a subset, of the corresponding fully permuted array, not of the
un-shuffled concatenation), and the four-way index alignment is preserved. -/
theorem C5_truncation_after_shuffle {α β γ δ : Type}
    [Inhabited α] [Inhabited β] [Inhabited γ] [Inhabited δ]
    (blobs : List (Blob α β γ δ)) (permutation : List Nat) (k : Nat)
    (hwf : ∀ b ∈ blobs, b.mixed_spectrograms.length = b.video_samples.length ∧
        b.speech_spectrograms.length = b.video_samples.length ∧
        b.noise_spectrograms.length = b.video_samples.length)
    (hperm : permutation.Perm
      (List.range ((blobs.map (fun b => b.video_samples.length)).sum)))
    (hk : k ≤ (blobs.map (fun b => b.video_samples.length)).sum) :
    ((load_preprocessed_samples blobs permutation (some k)).1.length = k ∧
      (load_preprocessed_samples blobs permutation (some k)).2.1.length = k ∧
      (load_preprocessed_samples blobs permutation (some k)).2.2.1.length = k ∧
      (load_preprocessed_samples blobs permutation (some k)).2.2.2.length = k) ∧
    ((load_preprocessed_samples blobs permutation (some k)).1 =
        (load_preprocessed_samples blobs permutation none).1.take k ∧
      (load_preprocessed_samples blobs permutation (some k)).2.1 =
        (load_preprocessed_samples blobs permutation none).2.1.take k ∧
      (load_preprocessed_samples blobs permutation (some k)).2.2.1 =
        (load_preprocessed_samples blobs permutation none).2.2.1.take k ∧
      (load_preprocessed_samples blobs permutation (some k)).2.2.2 =
        (load_preprocessed_samples blobs permutation none).2.2.2.take k) ∧
    ((load_preprocessed_samples blobs permutation (some k)).1 ⊆
        (load_preprocessed_samples blobs permutation none).1 ∧
      (load_preprocessed_samples blobs permutation (some k)).2.1 ⊆
        (load_preprocessed_samples blobs permutation none).2.1 ∧
      (load_preprocessed_samples blobs permutation (some k)).2.2.1 ⊆
        (load_preprocessed_samples blobs permutation none).2.2.1 ∧
      (load_preprocessed_samples blobs permutation (some k)).2.2.2 ⊆
        (load_preprocessed_samples blobs permutation none).2.2.2) ∧
    ∀ i, i < k →
      ∃ a r, a < blobs.length ∧ r < (blobs.getD a default).video_samples.length ∧
        (load_preprocessed_samples blobs permutation (some k)).1.getD i default =
          (blobs.getD a default).video_samples.getD r default ∧
        (load_preprocessed_samples blobs permutation (some k)).2.1.getD i default =
          (blobs.getD a default).mixed_spectrograms.getD r default ∧
        (load_preprocessed_samples blobs permutation (some k)).2.2.1.getD i default =
          (blobs.getD a default).speech_spectrograms.getD r default ∧
        (load_preprocessed_samples blobs permutation (some k)).2.2.2.getD i default =
          (blobs.getD a default).noise_spectrograms.getD r default := by
  have ht1 : (load_preprocessed_samples blobs permutation (some k)).1 =
      (load_preprocessed_samples blobs permutation none).1.take k := by
    simp [load_preprocessed_samples, truncOpt]
  have ht2 : (load_preprocessed_samples blobs permutation (some k)).2.1 =
      (load_preprocessed_samples blobs permutation none).2.1.take k := by
    simp [load_preprocessed_samples, truncOpt]
  have ht3 : (load_preprocessed_samples blobs permutation (some k)).2.2.1 =
      (load_preprocessed_samples blobs permutation none).2.2.1.take k := by
    simp [load_preprocessed_samples, truncOpt]
  have ht4 : (load_preprocessed_samples blobs permutation (some k)).2.2.2 =
      (load_preprocessed_samples blobs permutation none).2.2.2.take k := by
    simp [load_preprocessed_samples, truncOpt]
  obtain ⟨hl1, hl2, hl3, hl4⟩ := load_none_lengths blobs permutation hperm
  refine ⟨⟨?_, ?_, ?_, ?_⟩, ⟨ht1, ht2, ht3, ht4⟩, ⟨?_, ?_, ?_, ?_⟩, ?_⟩
  · rw [ht1]; simp [List.length_take, hl1]; omega
  · rw [ht2]; simp [List.length_take, hl2]; omega
  · rw [ht3]; simp [List.length_take, hl3]; omega
  · rw [ht4]; simp [List.length_take, hl4]; omega
  · rw [ht1]; exact List.take_subset k _
  · rw [ht2]; exact List.take_subset k _
  · rw [ht3]; exact List.take_subset k _
  · rw [ht4]; exact List.take_subset k _
  · intro i hik
    obtain ⟨a, r, ha, hr, hv1, hv2, hv3, hv4⟩ :=
      load_none_align blobs permutation hwf hperm i (by omega)
    refine ⟨a, r, ha, hr, ?_, ?_, ?_, ?_⟩
    · rw [ht1, getD_take_of_lt _ _ _ _ hik]; exact hv1
    · rw [ht2, getD_take_of_lt _ _ _ _ hik]; exact hv2
    · rw [ht3, getD_take_of_lt _ _ _ _ hik]; exact hv3
    · rw [ht4, getD_take_of_lt _ _ _ _ hik]; exact hv4

theorem C5_truncation_after_shuffle_witness :
    (∀ b ∈ blobsW, b.mixed_spectrograms.length = b.video_samples.length ∧
        b.speech_spectrograms.length = b.video_samples.length ∧
        b.noise_spectrograms.length = b.video_samples.length) ∧
    List.Perm [2, 0, 1]
      (List.range ((blobsW.map (fun b => b.video_samples.length)).sum)) ∧
    2 ≤ (blobsW.map (fun b => b.video_samples.length)).sum ∧
    (((load_preprocessed_samples blobsW [2, 0, 1] (some 2)).1.length = 2 ∧
      (load_preprocessed_samples blobsW [2, 0, 1] (some 2)).2.1.length = 2 ∧
      (load_preprocessed_samples blobsW [2, 0, 1] (some 2)).2.2.1.length = 2 ∧
      (load_preprocessed_samples blobsW [2, 0, 1] (some 2)).2.2.2.length = 2) ∧
    ((load_preprocessed_samples blobsW [2, 0, 1] (some 2)).1 =
        (load_preprocessed_samples blobsW [2, 0, 1] none).1.take 2 ∧
      (load_preprocessed_samples blobsW [2, 0, 1] (some 2)).2.1 =
        (load_preprocessed_samples blobsW [2, 0, 1] none).2.1.take 2 ∧
      (load_preprocessed_samples blobsW [2, 0, 1] (some 2)).2.2.1 =
        (load_preprocessed_samples blobsW [2, 0, 1] none).2.2.1.take 2 ∧
      (load_preprocessed_samples blobsW [2, 0, 1] (some 2)).2.2.2 =
        (load_preprocessed_samples blobsW [2, 0, 1] none).2.2.2.take 2) ∧
    ((load_preprocessed_samples blobsW [2, 0, 1] (some 2)).1 ⊆
        (load_preprocessed_samples blobsW [2, 0, 1] none).1 ∧
      (load_preprocessed_samples blobsW [2, 0, 1] (some 2)).2.1 ⊆
        (load_preprocessed_samples blobsW [2, 0, 1] none).2.1 ∧
      (load_preprocessed_samples blobsW [2, 0, 1] (some 2)).2.2.1 ⊆
        (load_preprocessed_samples blobsW [2, 0, 1] none).2.2.1 ∧
      (load_preprocessed_samples blobsW [2, 0, 1] (some 2)).2.2.2 ⊆
        (load_preprocessed_samples blobsW [2, 0, 1] none).2.2.2) ∧
    ∀ i, i < 2 →
      ∃ a r, a < blobsW.length ∧ r < (blobsW.getD a default).video_samples.length ∧
        (load_preprocessed_samples blobsW [2, 0, 1] (some 2)).1.getD i default =
          (blobsW.getD a default).video_samples.getD r default ∧
        (load_preprocessed_samples blobsW [2, 0, 1] (some 2)).2.1.getD i default =
          (blobsW.getD a default).mixed_spectrograms.getD r default ∧
        (load_preprocessed_samples blobsW [2, 0, 1] (some 2)).2.2.1.getD i default =
          (blobsW.getD a default).speech_spectrograms.getD r default ∧
        (load_preprocessed_samples blobsW [2, 0, 1] (some 2)).2.2.2.getD i default =
          (blobsW.getD a default).noise_spectrograms.getD r default) :=
  ⟨by decide, by decide, by decide,
   C5_truncation_after_shuffle blobsW [2, 0, 1] 2 (by decide) (by decide) (by decide)⟩

/-- Modelled from the spec: `AudioVisualDataset(dataset_dir).subset(speaker_ids,
max_files, shuffle=True)` of the `dataset` module, which is not under `src/`.
Per the spec, file listing "is performed per dataset (\"subset\") with optional
shuffling and an optional cap on result count"; `pairs` is the speaker subset's
paired (video, speech) listing in dataset order and `draw` the random shuffle
draw, applied before the cap. -/
def avSubset (pairs : List (String × String)) (max_files : Option Nat)
    (draw : List Nat) : List (String × String) :=
  truncOpt (fancyIndex pairs draw) max_files

/-- Modelled from the spec: `AudioDataset(noise_dirs).subset(max_files,
shuffle=True)` of the `dataset` module, which is not under `src/`; same shuffle
and cap contract as `avSubset`, over a flat noise-file listing. -/
def audioSubset (noise_files : List String) (max_files : Option Nat)
    (draw : List Nat) : List String :=
  truncOpt (fancyIndex noise_files draw) max_files

/-- Embedding of `list_data` (lines 222-231): list the shuffled speech subset and noise
subset, set `n_files = min(speech_subset.size(), len(noise_file_paths))`, and
return the three sequences clipped to `n_files`. -/
def list_data (pairs : List (String × String)) (noise_files : List String)
    (max_files : Option Nat) (speech_draw noise_draw : List Nat) :
    List String × List String × List String :=
  let speech_subset := avSubset pairs max_files speech_draw
  let noise_file_paths := audioSubset noise_files max_files noise_draw
  let n_files := min speech_subset.length noise_file_paths.length
  ((speech_subset.map Prod.fst).take n_files,
   (speech_subset.map Prod.snd).take n_files,
   noise_file_paths.take n_files)

/-- C3: `list_data` returns three sequences of equal length
n = min(count of paired speech/video samples in the subset, count of noise
files), each the length-n prefix of the corresponding subset-order sequence
(order preserved, excess silently dropped). -/
theorem C3_list_data_min_truncation (pairs : List (String × String))
    (noise_files : List String) (max_files : Option Nat)
    (speech_draw noise_draw : List Nat) :
    ((list_data pairs noise_files max_files speech_draw noise_draw).1.length =
        min (avSubset pairs max_files speech_draw).length
          (audioSubset noise_files max_files noise_draw).length ∧
      (list_data pairs noise_files max_files speech_draw noise_draw).2.1.length =
        min (avSubset pairs max_files speech_draw).length
          (audioSubset noise_files max_files noise_draw).length ∧
      (list_data pairs noise_files max_files speech_draw noise_draw).2.2.length =
        min (avSubset pairs max_files speech_draw).length
          (audioSubset noise_files max_files noise_draw).length) ∧
    List.IsPrefix (list_data pairs noise_files max_files speech_draw noise_draw).1
      ((avSubset pairs max_files speech_draw).map Prod.fst) ∧
    List.IsPrefix (list_data pairs noise_files max_files speech_draw noise_draw).2.1
      ((avSubset pairs max_files speech_draw).map Prod.snd) ∧
    List.IsPrefix (list_data pairs noise_files max_files speech_draw noise_draw).2.2
      (audioSubset noise_files max_files noise_draw) := by
  refine ⟨⟨?_, ?_, ?_⟩, List.take_prefix _ _, List.take_prefix _ _, List.take_prefix _ _⟩
  · simp [list_data]
  · simp [list_data]
  · simp [list_data]

/-- Python `list.remove(x)`: delete the first occurrence of `x`, or fail with
`ValueError` (`none`) when `x` is absent. -/
def pyRemove (l : List String) (x : String) : Option (List String) :=
  match l with
  | [] => none
  | a :: rest => if a = x then some rest else (pyRemove rest x).map (fun r => a :: r)

/-- The `for speaker_id in args.ignored_speakers: speaker_ids.remove(speaker_id)`
loop of `list_speakers` (lines 215-217). -/
def removeIgnored (base : List String) : List String → Except String (List String)
  | [] => .ok base
  | x :: xs =>
    match pyRemove base x with
    | none => .error "ValueError"
    | some b => removeIgnored b xs

/-- Embedding of `list_speakers` (lines 208-219): the base list is the explicit `--speakers`
argument when given, otherwise the discovered speakers; each ignored identifier
is then removed with Python `list.remove`, which raises `ValueError` when the
identifier is absent. -/
def list_speakers (speakers : Option (List String)) (discovered : List String)
    (ignored_speakers : Option (List String)) : Except String (List String) :=
  let speaker_ids :=
    match speakers with
    | none => discovered
    | some s => s
  match ignored_speakers with
  | none => .ok speaker_ids
  | some ig => removeIgnored speaker_ids ig

theorem pyRemove_eq (l : List String) (x : String) :
    pyRemove l x = if x ∈ l then some (l.erase x) else none := by
  induction l with
  | nil => simp [pyRemove]
  | cons a rest ih =>
    by_cases hax : a = x
    · subst hax
      simp [pyRemove, List.erase_cons_head]
    · rw [pyRemove]
      simp only [if_neg hax, ih]
      have herase : (a :: rest).erase x = a :: rest.erase x :=
        List.erase_cons_tail (by simpa using hax)
      by_cases hx : x ∈ rest
      · rw [if_pos hx, if_pos (List.mem_cons_of_mem a hx), herase]
        rfl
      · rw [if_neg hx, if_neg (by simp [hx, Ne.symm hax])]
        rfl

theorem removeIgnored_ok (I : List String) : ∀ S : List String, S.Nodup → I.Nodup →
    (∀ x ∈ I, x ∈ S) →
    removeIgnored S I = .ok (S.filter (fun x => x ∉ I)) := by
  induction I with
  | nil =>
    intro S _ _ _
    simp [removeIgnored]
  | cons x xs ih =>
    intro S hS hI hsub
    have hxS : x ∈ S := hsub x (by simp)
    have hxxs : x ∉ xs := (List.nodup_cons.mp hI).1
    have htail : removeIgnored (S.erase x) xs =
        .ok ((S.erase x).filter (fun y => y ∉ xs)) := by
      refine ih (S.erase x) (hS.erase x) (List.nodup_cons.mp hI).2 ?_
      intro y hy
      have hyS : y ∈ S := hsub y (by simp [hy])
      have hyx : y ≠ x := fun h => hxxs (h ▸ hy)
      exact (List.mem_erase_of_ne hyx).mpr hyS
    rw [removeIgnored, pyRemove_eq, if_pos hxS]
    show removeIgnored (S.erase x) xs = _
    rw [htail]
    congr 1
    rw [hS.erase_eq_filter, List.filter_filter]
    refine List.filter_congr ?_
    intro y _
    by_cases h1 : y = x <;> by_cases h2 : y ∈ xs <;> simp [h1, h2]

theorem removeIgnored_err (I : List String) : ∀ S : List String,
    (∃ x ∈ I, x ∉ S) → removeIgnored S I = .error "ValueError" := by
  induction I with
  | nil =>
    intro S h
    simp at h
  | cons x xs ih =>
    intro S h
    by_cases hxS : x ∈ S
    · rw [removeIgnored, pyRemove_eq, if_pos hxS]
      show removeIgnored (S.erase x) xs = _
      refine ih (S.erase x) ?_
      obtain ⟨y, hy, hyS⟩ := h
      rcases List.mem_cons.mp hy with rfl | hyxs
      · exact absurd hxS hyS
      · exact ⟨y, hyxs, fun hc => hyS (List.mem_of_mem_erase hc)⟩
    · rw [removeIgnored, pyRemove_eq, if_neg hxS]

/-- C6: for every base speaker list S and ignore list I (both duplicate-free),
`list_speakers` returns S with the identifiers of I removed, and fails with a
lookup error (`ValueError`) whenever some identifier in I is not present in S;
the base list is the explicit list when given, otherwise the discovered one. -/
theorem C6_list_speakers_ignore (discovered S I : List String)
    (hS : S.Nodup) (hI : I.Nodup) :
    ((∀ x ∈ I, x ∈ S) →
      list_speakers (some S) discovered (some I) =
        .ok (S.filter (fun x => x ∉ I))) ∧
    ((∃ x ∈ I, x ∉ S) →
      list_speakers (some S) discovered (some I) = .error "ValueError") ∧
    list_speakers none S (some I) = list_speakers (some S) discovered (some I) := by
  refine ⟨fun hsub => ?_, fun hex => ?_, rfl⟩
  · simpa [list_speakers] using removeIgnored_ok I S hS hI hsub
  · simpa [list_speakers] using removeIgnored_err I S hex

theorem C6_list_speakers_ignore_witness :
    (["A", "B", "C"] : List String).Nodup ∧ (["B"] : List String).Nodup ∧
    (((∀ x ∈ (["B"] : List String), x ∈ (["A", "B", "C"] : List String)) →
      list_speakers (some ["A", "B", "C"]) [] (some ["B"]) =
        .ok ((["A", "B", "C"] : List String).filter (fun x => x ∉ (["B"] : List String)))) ∧
    ((∃ x ∈ (["B"] : List String), x ∉ (["A", "B", "C"] : List String)) →
      list_speakers (some ["A", "B", "C"]) [] (some ["B"]) = .error "ValueError") ∧
    list_speakers none ["A", "B", "C"] (some ["B"]) =
      list_speakers (some ["A", "B", "C"]) [] (some ["B"])) :=
  ⟨by decide, by decide,
   C6_list_speakers_ignore [] ["A", "B", "C"] ["B"] (by decide) (by decide)⟩

/-- The per-triple prediction loop of `predict` (lines 118-147): the whole
body — preprocessing, normalization, evaluation, reconstruction and storage —
is abstracted as one fallible `process` step per triple (its stages are all
inside the single `try`); an `ok` result is a saved prediction directory, an
`error` is caught by the `except` clause, logged, and the loop continues. -/
def predict_loop {τ σd ε : Type} (process : τ → Except ε σd) :
    List τ → List σd × List ε
  | [] => ([], [])
  | t :: ts =>
    let rest := predict_loop process ts
    match process t with
    | .ok s => (s :: rest.1, rest.2)
    | .error e => (rest.1, e :: rest.2)

theorem predict_loop_counts {τ σd ε : Type} (process : τ → Except ε σd)
    (triples : List τ) :
    (predict_loop process triples).1 =
      triples.filterMap (fun t => (process t).toOption) ∧
    (predict_loop process triples).2.length =
      (triples.filter (fun t => !(process t).isOk)).length ∧
    (predict_loop process triples).1.length +
      (predict_loop process triples).2.length = triples.length := by
  induction triples with
  | nil => simp [predict_loop]
  | cons t ts ih =>
    obtain ⟨ih1, ih2, ih3⟩ := ih
    cases hp : process t with
    | ok s =>
      refine ⟨?_, ?_, ?_⟩
      · simp [predict_loop, hp, ih1, Except.toOption]
      · simp [predict_loop, hp, ih2, List.filter_cons, Except.isOk, Except.toBool]
      · simp only [predict_loop, hp, List.length_cons]
        omega
    | error e =>
      refine ⟨?_, ?_, ?_⟩
      · simp [predict_loop, hp, ih1, Except.toOption]
      · simp [predict_loop, hp, ih2, List.filter_cons, Except.isOk, Except.toBool]
      · simp only [predict_loop, hp, List.length_cons]
        omega

/-- C2: every exception raised while processing one triple is caught and
logged and the loop continues; with 5 triples of which exactly one raises,
exactly 4 predictions are saved, one failure is logged, every triple is
processed (4 + 1 = 5, the run does not terminate early), and the saved
results are exactly the successful ones in order. -/
theorem C2_predict_loop_resilience {τ σd ε : Type} (process : τ → Except ε σd)
    (triples : List τ) (h5 : triples.length = 5)
    (h1 : (triples.filter (fun t => !(process t).isOk)).length = 1) :
    (predict_loop process triples).1.length = 4 ∧
    (predict_loop process triples).2.length = 1 ∧
    (predict_loop process triples).1.length +
      (predict_loop process triples).2.length = 5 ∧
    (predict_loop process triples).1 =
      triples.filterMap (fun t => (process t).toOption) := by
  obtain ⟨hA, hB, hC⟩ := predict_loop_counts process triples
  refine ⟨by omega, by omega, by omega, hA⟩

/-- The failing step used to instantiate the prediction-loop claim: triple 3
raises during preprocessing, all others succeed. -/
def processW : Nat → Except String Nat :=
  fun t => if t = 3 then .error "preprocessing failed" else .ok t

theorem C2_predict_loop_resilience_witness :
    ([1, 2, 3, 4, 5] : List Nat).length = 5 ∧
    (([1, 2, 3, 4, 5] : List Nat).filter (fun t => !(processW t).isOk)).length = 1 ∧
    ((predict_loop processW [1, 2, 3, 4, 5]).1.length = 4 ∧
    (predict_loop processW [1, 2, 3, 4, 5]).2.length = 1 ∧
    (predict_loop processW [1, 2, 3, 4, 5]).1.length +
      (predict_loop processW [1, 2, 3, 4, 5]).2.length = 5 ∧
    (predict_loop processW [1, 2, 3, 4, 5]).1 =
      ([1, 2, 3, 4, 5] : List Nat).filterMap (fun t => (processW t).toOption)) :=
  ⟨by decide, by decide,
   C2_predict_loop_resilience processW [1, 2, 3, 4, 5] (by decide) (by decide)⟩

/-- C8 counterexample: `list_data` is an operation other than the aggregator
permutation, yet two runs on the same inputs that differ only in the random
shuffle draw of the speech subset (`shuffle=True` at line 224) produce
outputs in different orders. -/
theorem C8_counterexample_list_data_order :
    ¬ (∀ d d' : List Nat, List.Perm d (List.range 2) →
        List.Perm d' (List.range 2) →
        list_data [("v1", "a1"), ("v2", "a2")] ["n1", "n2"] none d [0, 1] =
          list_data [("v1", "a1"), ("v2", "a2")] ["n1", "n2"] none d' [0, 1]) := by
  intro h
  exact absurd (h [0, 1] [1, 0] (by decide) (by decide)) (by decide)

/-- C8 amended: randomness affects output order in the Blob Aggregator's
permutation and also in the Indexer's shuffled speech and noise subset
listings (`shuffle=True` in `list_data`); distinct valid draws change the
output order at all three sites. -/
theorem C8_amended_randomness_sites :
    (list_data [("v1", "a1"), ("v2", "a2")] ["n1", "n2"] none [0, 1] [0, 1] ≠
      list_data [("v1", "a1"), ("v2", "a2")] ["n1", "n2"] none [1, 0] [0, 1]) ∧
    (list_data [("v1", "a1"), ("v2", "a2")] ["n1", "n2"] none [0, 1] [0, 1] ≠
      list_data [("v1", "a1"), ("v2", "a2")] ["n1", "n2"] none [0, 1] [1, 0]) ∧
    (load_preprocessed_samples blobsW [0, 1, 2] none ≠
      load_preprocessed_samples blobsW [2, 0, 1] none) ∧
    List.Perm [0, 1] (List.range 2) ∧ List.Perm [1, 0] (List.range 2) ∧
    List.Perm [0, 1, 2] (List.range 3) ∧ List.Perm [2, 0, 1] (List.range 3) := by
  decide

/-- One observable action on the video normalizer state. -/
inductive NormEvent (S V : Type) where
  | fit (s : S)
  | normalize (s : S) (v : V)
  | dump (s : S)
  | load (s : S)
deriving DecidableEq

/-- Whether a normalizer event is a (re-)fit. -/
def NormEvent.isFit {S V : Type} : NormEvent S V → Bool
  | .fit _ => true
  | _ => false

/-- Model of `pickle.dump(obj, fd)` on the cache file at `path`: the serialized store
maps paths to opaque serialized states; a dump overwrites the entry. -/
def pickle_dump {S : Type} (store : List (String × S)) (path : String) (s : S) :
    List (String × S) :=
  (path, s) :: store

/-- Model of `pickle.load(fd)` from the cache file at `path`. -/
def pickle_load {S : Type} (store : List (String × S)) (path : String) : Option S :=
  (store.find? (fun e => e.1 == path)).map Prod.snd

/-- The normalization steps of `train` (lines 80-85): construct
`VideoNormalizer(train_video_samples)` — the one fit — normalize the train
and validation videos with it, and pickle it to the normalization cache
immediately after. Returns the post-run pickle store and the trace of
normalizer events. -/
def train_normalization {S V : Type} (fitN : V → S)
    (train_video_samples validation_video_samples : V)
    (store : List (String × S)) (normalization_cache : String) :
    List (String × S) × List (NormEvent S V) :=
  let video_normalizer := fitN train_video_samples
  (pickle_dump store normalization_cache video_normalizer,
   [.fit video_normalizer,
    .normalize video_normalizer train_video_samples,
    .normalize video_normalizer validation_video_samples,
    .dump video_normalizer])

/-- The normalization steps of `predict` (lines 101-102 and 126): unpickle
the normalizer from the cache once, then apply `normalize` — never fit — to
each processed video tensor in turn. -/
def predict_normalization {S V : Type} (store : List (String × S))
    (normalization_cache : String) (videos : List V) :
    Option (S × List (NormEvent S V)) :=
  match pickle_load store normalization_cache with
  | none => none
  | some video_normalizer =>
    some (video_normalizer,
      .load video_normalizer :: videos.map (fun v => .normalize video_normalizer v))

/-- C7: the normalizer is fitted exactly once (from the training videos in
`train`), serialized to the cache immediately after fitting, and every later
`predict` run loads that state verbatim and only applies `normalize` with it
to every video tensor — its trace contains no fit event, so the identical
statistics are applied to every video tensor in training and inference. -/
theorem C7_normalizer_fit_once_cache_roundtrip {S V : Type} (fitN : V → S)
    (train_video_samples validation_video_samples : V)
    (store : List (String × S)) (normalization_cache : String)
    (videos : List V) :
    ((train_normalization fitN train_video_samples validation_video_samples
        store normalization_cache).2.filter NormEvent.isFit) =
      [NormEvent.fit (fitN train_video_samples)] ∧
    pickle_load (train_normalization fitN train_video_samples
        validation_video_samples store normalization_cache).1
        normalization_cache = some (fitN train_video_samples) ∧
    predict_normalization (train_normalization fitN train_video_samples
        validation_video_samples store normalization_cache).1
        normalization_cache videos =
      some (fitN train_video_samples,
        .load (fitN train_video_samples) ::
          videos.map (fun v => NormEvent.normalize (fitN train_video_samples) v)) ∧
    ((NormEvent.load (fitN train_video_samples) ::
        videos.map (fun v => NormEvent.normalize (fitN train_video_samples) v)).filter
        NormEvent.isFit) = [] := by
  refine ⟨?_, ?_, ?_, ?_⟩
  · simp [train_normalization, NormEvent.isFit]
  · simp [train_normalization, pickle_dump, pickle_load]
  · simp [train_normalization, predict_normalization, pickle_dump, pickle_load]
  · simp [NormEvent.isFit]

/-- A file-system snapshot: directories and files with contents. Paths are
lists of path segments; `os.path.join(d, name)` appends one segment. -/
structure FileSystem where
  dirs : List (List String)
  files : List (List String × String)
deriving DecidableEq

/-- Model of `os.mkdir(path)`: fails with `FileExistsError` when the directory
already exists, otherwise records it. -/
def os_mkdir (fs : FileSystem) (path : List String) : Except String FileSystem :=
  if path ∈ fs.dirs then .error "FileExistsError"
  else .ok { fs with dirs := path :: fs.dirs }

/-- Write (create or overwrite) a file; reads see the newest entry first. -/
def writeFile (fs : FileSystem) (path : List String) (content : String) :
    FileSystem :=
  { fs with files := (path, content) :: fs.files }

/-- Read a file's content. -/
def readFile (fs : FileSystem) (path : List String) : Option String :=
  (fs.files.find? (fun f => f.1 == path)).map Prod.snd

/-- Model of `shutil.copy2(src, dst)`: byte-for-byte copy of the source's content. -/
def copy2 (fs : FileSystem) (src dst : List String) : Except String FileSystem :=
  match readFile fs src with
  | none => .error "FileNotFoundError"
  | some content => .ok (writeFile fs dst content)

/-- Model of `os.path.basename` on a segment path. -/
def basename (p : List String) : String := p.getLastD ""

/-- Characters preceding the last dot, given the reversed character list. -/
def splitextRootAux : List Char → Option (List Char)
  | [] => none
  | c :: rest => if c = '.' then some rest else splitextRootAux rest

/-- Model of `os.path.splitext(s)[0]`: strip the suffix from the last dot on, unless
every character before that dot is itself a dot (Python keeps names like
`.bashrc` whole). -/
def splitextRoot (s : String) : String :=
  match splitextRootAux s.data.reverse with
  | none => s
  | some revRoot =>
    if revRoot.any (fun c => c ≠ '.') then String.mk revRoot.reverse else s

/-- Embedding of `PredictionStorage.__create_speaker_dir` (lines 156-162): create the
per-speaker directory only if absent (idempotent). -/
def create_speaker_dir (fs : FileSystem) (base_dir : List String)
    (speaker_id : String) : FileSystem × List String :=
  let speaker_dir := base_dir ++ [speaker_id]
  if speaker_dir ∈ fs.dirs then (fs, speaker_dir)
  else ({ fs with dirs := speaker_dir :: fs.dirs }, speaker_dir)

/-- Embedding of `PredictionStorage.save_prediction` (lines 164-192). Note line 170: the
first stem of the sample directory name is computed from `video_file_path`
(the variable is merely called `speech_name`). -/
def save_prediction (fs : FileSystem) (base_dir : List String)
    (speaker_id : String)
    (video_file_path noise_file_path speech_file_path : List String)
    (mixed_signal predicted_speech_signal nn_speech : String)
    (enhanced_speech_spectrogram nn_speech_spectrogram mixed_spectrogram : String) :
    Except String FileSystem :=
  let p := create_speaker_dir fs base_dir speaker_id
  let speech_name := splitextRoot (basename video_file_path)
  let noise_name := splitextRoot (basename noise_file_path)
  let sample_prediction_dir := p.2 ++ [speech_name ++ "_" ++ noise_name]
  match os_mkdir p.1 sample_prediction_dir with
  | .error e => .error e
  | .ok fs2 =>
    match copy2 fs2 speech_file_path (sample_prediction_dir ++ ["source.wav"]) with
    | .error e => .error e
    | .ok fs3 =>
      let fs4 := writeFile fs3 (sample_prediction_dir ++ ["mixture.wav"]) mixed_signal
      let fs5 := writeFile fs4 (sample_prediction_dir ++ ["enhanced.wav"]) predicted_speech_signal
      let fs6 := writeFile fs5 (sample_prediction_dir ++ ["nn.wav"]) nn_speech
      let fs7 := writeFile fs6 (sample_prediction_dir ++ ["mixture.npy"]) mixed_spectrogram
      let fs8 := writeFile fs7 (sample_prediction_dir ++ ["enhanced.npy"]) enhanced_speech_spectrogram
      let fs9 := writeFile fs8 (sample_prediction_dir ++ ["nn.npy"]) nn_speech_spectrogram
      .ok fs9

/-- The files lying directly inside directory `d`. -/
def filesUnder (fs : FileSystem) (d : List String) :
    List (List String × String) :=
  fs.files.filter (fun f => f.1.dropLast == d)

/-- Initial file system for the storage claims: the run directory exists and
the clean-speech source file `s.wav` has content `SRC`. -/
def fs0W : FileSystem := ⟨[["run"]], [(["s.wav"], "SRC")]⟩

/-- Expected file system after one `save_prediction` call on `fs0W` with
video `v.mp4`, noise `n1.wav`, speech `s.wav`. -/
def fsAfterW : FileSystem :=
  ⟨[["run", "spk1", "v_n1"], ["run", "spk1"], ["run"]],
   [(["run", "spk1", "v_n1", "nn.npy"], "NS"),
    (["run", "spk1", "v_n1", "enhanced.npy"], "ES"),
    (["run", "spk1", "v_n1", "mixture.npy"], "MX"),
    (["run", "spk1", "v_n1", "nn.wav"], "N"),
    (["run", "spk1", "v_n1", "enhanced.wav"], "E"),
    (["run", "spk1", "v_n1", "mixture.wav"], "M"),
    (["run", "spk1", "v_n1", "source.wav"], "SRC"),
    (["s.wav"], "SRC")]⟩

/-- C4 counterexample: with video basename `v` distinct from speech basename
`s`, `save_prediction` creates the sample directory `v_n1` — derived from the
video file's basename — and no directory `s_n1` named after the speech
basename exists, refuting the claimed `<speech-basename>_<noise-basename>`
naming. -/
theorem C4_counterexample_video_stem_naming :
    save_prediction fs0W ["run"] "spk1" ["v.mp4"] ["n1.wav"] ["s.wav"]
      "M" "E" "N" "ES" "NS" "MX" = .ok fsAfterW ∧
    ["run", "spk1", "v_n1"] ∈ fsAfterW.dirs ∧
    ["run", "spk1", "s_n1"] ∉ fsAfterW.dirs ∧
    filesUnder fsAfterW ["run", "spk1", "s_n1"] = [] := by
  refine ⟨?_, by decide, by decide, by decide⟩
  decide

/-- The sample prediction directory path computed at lines 170-173:
`os.path.join(speaker_dir, splitext(basename(video))[0] + \'_\' +
splitext(basename(noise))[0])`. -/
def sample_dir (base_dir : List String) (speaker_id : String)
    (video_file_path noise_file_path : List String) : List String :=
  (base_dir ++ [speaker_id]) ++
    [splitextRoot (basename video_file_path) ++ "_" ++
      splitextRoot (basename noise_file_path)]

/-- C4 (amended): for every successfully reconstructed sample,
`save_prediction` creates a fresh subdirectory of the speaker directory named
`<video-basename>_<noise-basename>` (basenames without extensions; the code
derives the first stem from the video file path, not the speech file path)
containing exactly the files mixture.wav, enhanced.wav, nn.wav, source.wav (a
byte-for-byte copy of the clean-speech source), mixture.npy, enhanced.npy,
nn.npy; a second call with the same speaker, video name, and noise name
raises a directory-exists error. -/
theorem C4_save_prediction_amended (fs : FileSystem) (base_dir : List String)
    (speaker_id : String)
    (video_file_path noise_file_path speech_file_path : List String)
    (M E N ES NS MX src_content : String)
    (hsrc : readFile fs speech_file_path = some src_content)
    (hdir : sample_dir base_dir speaker_id video_file_path noise_file_path ∉ fs.dirs)
    (hold : ∀ f ∈ fs.files, f.1.dropLast ≠
      sample_dir base_dir speaker_id video_file_path noise_file_path) :
    ∃ fs', save_prediction fs base_dir speaker_id video_file_path
        noise_file_path speech_file_path M E N ES NS MX = .ok fs' ∧
      sample_dir base_dir speaker_id video_file_path noise_file_path ∈ fs'.dirs ∧
      (filesUnder fs'
          (sample_dir base_dir speaker_id video_file_path noise_file_path)).map
          Prod.fst =
        [sample_dir base_dir speaker_id video_file_path noise_file_path ++ ["nn.npy"],
         sample_dir base_dir speaker_id video_file_path noise_file_path ++ ["enhanced.npy"],
         sample_dir base_dir speaker_id video_file_path noise_file_path ++ ["mixture.npy"],
         sample_dir base_dir speaker_id video_file_path noise_file_path ++ ["nn.wav"],
         sample_dir base_dir speaker_id video_file_path noise_file_path ++ ["enhanced.wav"],
         sample_dir base_dir speaker_id video_file_path noise_file_path ++ ["mixture.wav"],
         sample_dir base_dir speaker_id video_file_path noise_file_path ++ ["source.wav"]] ∧
      readFile fs' (sample_dir base_dir speaker_id video_file_path noise_file_path ++
        ["source.wav"]) = some src_content ∧
      readFile fs' (sample_dir base_dir speaker_id video_file_path noise_file_path ++
        ["mixture.wav"]) = some M ∧
      readFile fs' (sample_dir base_dir speaker_id video_file_path noise_file_path ++
        ["enhanced.wav"]) = some E ∧
      readFile fs' (sample_dir base_dir speaker_id video_file_path noise_file_path ++
        ["nn.wav"]) = some N ∧
      readFile fs' (sample_dir base_dir speaker_id video_file_path noise_file_path ++
        ["mixture.npy"]) = some MX ∧
      readFile fs' (sample_dir base_dir speaker_id video_file_path noise_file_path ++
        ["enhanced.npy"]) = some ES ∧
      readFile fs' (sample_dir base_dir speaker_id video_file_path noise_file_path ++
        ["nn.npy"]) = some NS ∧
      ∀ M2 E2 N2 ES2 NS2 MX2 : String,
        save_prediction fs' base_dir speaker_id video_file_path noise_file_path
          speech_file_path M2 E2 N2 ES2 NS2 MX2 = .error "FileExistsError" := by
  have hc2 : (create_speaker_dir fs base_dir speaker_id).2 =
      base_dir ++ [speaker_id] := by
    unfold create_speaker_dir
    dsimp only
    split <;> rfl
  have hcf : (create_speaker_dir fs base_dir speaker_id).1.files = fs.files := by
    unfold create_speaker_dir
    dsimp only
    split <;> rfl
  have hcd : (create_speaker_dir fs base_dir speaker_id).1.dirs = fs.dirs ∨
      (create_speaker_dir fs base_dir speaker_id).1.dirs =
        (base_dir ++ [speaker_id]) :: fs.dirs := by
    unfold create_speaker_dir
    dsimp only
    split
    · exact Or.inl rfl
    · exact Or.inr rfl
  have hne : sample_dir base_dir speaker_id video_file_path noise_file_path ≠
      base_dir ++ [speaker_id] := by
    intro h
    have := congrArg List.length h
    simp [sample_dir] at this
  have hsd1 : sample_dir base_dir speaker_id video_file_path noise_file_path ∉
      (create_speaker_dir fs base_dir speaker_id).1.dirs := by
    rcases hcd with h | h <;> rw [h]
    · exact hdir
    · intro hm
      rcases List.mem_cons.mp hm with he | hm2
      · exact hne he
      · exact hdir hm2
  have hspd1 : base_dir ++ [speaker_id] ∈
      (create_speaker_dir fs base_dir speaker_id).1.dirs := by
    unfold create_speaker_dir
    dsimp only
    split
    next h => exact h
    next h => exact List.mem_cons_self _ _
  have hmain : save_prediction fs base_dir speaker_id video_file_path
      noise_file_path speech_file_path M E N ES NS MX =
      .ok ⟨sample_dir base_dir speaker_id video_file_path noise_file_path ::
            (create_speaker_dir fs base_dir speaker_id).1.dirs,
           (sample_dir base_dir speaker_id video_file_path noise_file_path ++
              ["nn.npy"], NS) ::
           (sample_dir base_dir speaker_id video_file_path noise_file_path ++
              ["enhanced.npy"], ES) ::
           (sample_dir base_dir speaker_id video_file_path noise_file_path ++
              ["mixture.npy"], MX) ::
           (sample_dir base_dir speaker_id video_file_path noise_file_path ++
              ["nn.wav"], N) ::
           (sample_dir base_dir speaker_id video_file_path noise_file_path ++
              ["enhanced.wav"], E) ::
           (sample_dir base_dir speaker_id video_file_path noise_file_path ++
              ["mixture.wav"], M) ::
           (sample_dir base_dir speaker_id video_file_path noise_file_path ++
              ["source.wav"], src_content) :: fs.files⟩ := by
    simp only [save_prediction, hc2, sample_dir, os_mkdir]
    rw [if_neg (by simpa [sample_dir] using hsd1)]
    simp only [copy2, readFile, hcf]
    have hsrc2 : (fs.files.find? (fun f => f.1 == speech_file_path)).map
        Prod.snd = some src_content := hsrc
    rw [hsrc2]
    simp only [writeFile]
  refine ⟨_, hmain, List.mem_cons_self _ _, ?_, ?_, ?_, ?_, ?_, ?_, ?_, ?_, ?_⟩
  · have hfilter0 : fs.files.filter (fun f => f.1.dropLast ==
        sample_dir base_dir speaker_id video_file_path noise_file_path) = [] := by
      refine List.filter_eq_nil_iff.mpr ?_
      intro f hf
      simp only [beq_iff_eq]
      intro hc
      exact hold f hf hc
    simp [filesUnder, List.filter_cons, List.dropLast_concat, hfilter0]
  · simp [readFile, List.find?_cons, beq_iff_eq]
  · simp [readFile, List.find?_cons, beq_iff_eq]
  · simp [readFile, List.find?_cons, beq_iff_eq]
  · simp [readFile, List.find?_cons, beq_iff_eq]
  · simp [readFile, List.find?_cons, beq_iff_eq]
  · simp [readFile, List.find?_cons, beq_iff_eq]
  · simp [readFile, List.find?_cons, beq_iff_eq]
  · intro M2 E2 N2 ES2 NS2 MX2
    unfold save_prediction create_speaker_dir os_mkdir
    by_cases hb : base_dir ++ [speaker_id] ∈ fs.dirs
    · simp [hb, List.mem_cons, sample_dir]
    · simp [hb, List.mem_cons, sample_dir]

theorem C4_save_prediction_amended_witness :
    readFile fs0W ["s.wav"] = some "SRC" ∧
    sample_dir ["run"] "spk1" ["v.mp4"] ["n1.wav"] ∉ fs0W.dirs ∧
    (∀ f ∈ fs0W.files, f.1.dropLast ≠ sample_dir ["run"] "spk1" ["v.mp4"] ["n1.wav"]) ∧
    (∃ fs', save_prediction fs0W ["run"] "spk1" ["v.mp4"] ["n1.wav"] ["s.wav"]
        "M" "E" "N" "ES" "NS" "MX" = .ok fs' ∧
      sample_dir ["run"] "spk1" ["v.mp4"] ["n1.wav"] ∈ fs'.dirs ∧
      (filesUnder fs' (sample_dir ["run"] "spk1" ["v.mp4"] ["n1.wav"])).map Prod.fst =
        [sample_dir ["run"] "spk1" ["v.mp4"] ["n1.wav"] ++ ["nn.npy"],
         sample_dir ["run"] "spk1" ["v.mp4"] ["n1.wav"] ++ ["enhanced.npy"],
         sample_dir ["run"] "spk1" ["v.mp4"] ["n1.wav"] ++ ["mixture.npy"],
         sample_dir ["run"] "spk1" ["v.mp4"] ["n1.wav"] ++ ["nn.wav"],
         sample_dir ["run"] "spk1" ["v.mp4"] ["n1.wav"] ++ ["enhanced.wav"],
         sample_dir ["run"] "spk1" ["v.mp4"] ["n1.wav"] ++ ["mixture.wav"],
         sample_dir ["run"] "spk1" ["v.mp4"] ["n1.wav"] ++ ["source.wav"]] ∧
      readFile fs' (sample_dir ["run"] "spk1" ["v.mp4"] ["n1.wav"] ++ ["source.wav"]) = some "SRC" ∧
      readFile fs' (sample_dir ["run"] "spk1" ["v.mp4"] ["n1.wav"] ++ ["mixture.wav"]) = some "M" ∧
      readFile fs' (sample_dir ["run"] "spk1" ["v.mp4"] ["n1.wav"] ++ ["enhanced.wav"]) = some "E" ∧
      readFile fs' (sample_dir ["run"] "spk1" ["v.mp4"] ["n1.wav"] ++ ["nn.wav"]) = some "N" ∧
      readFile fs' (sample_dir ["run"] "spk1" ["v.mp4"] ["n1.wav"] ++ ["mixture.npy"]) = some "MX" ∧
      readFile fs' (sample_dir ["run"] "spk1" ["v.mp4"] ["n1.wav"] ++ ["enhanced.npy"]) = some "ES" ∧
      readFile fs' (sample_dir ["run"] "spk1" ["v.mp4"] ["n1.wav"] ++ ["nn.npy"]) = some "NS" ∧
      ∀ M2 E2 N2 ES2 NS2 MX2 : String,
        save_prediction fs' ["run"] "spk1" ["v.mp4"] ["n1.wav"] ["s.wav"]
          M2 E2 N2 ES2 NS2 MX2 = .error "FileExistsError") :=
  ⟨by decide, by decide, by decide,
   C4_save_prediction_amended fs0W ["run"] "spk1" ["v.mp4"] ["n1.wav"] ["s.wav"]
     "M" "E" "N" "ES" "NS" "MX" "SRC" (by decide) (by decide) (by decide)⟩

/-- Drop `pat` as a prefix of `l`, when it is one. -/
def dropPrefixCh : List Char → List Char → Option (List Char)
  | [], l => some l
  | _ :: _, [] => none
  | p :: ps, c :: cs => if p = c then dropPrefixCh ps cs else none

theorem dropPrefixCh_some (pat : List Char) : ∀ l rest : List Char,
    dropPrefixCh pat l = some rest → l = pat ++ rest := by
  induction pat with
  | nil =>
    intro l rest h
    simp [dropPrefixCh] at h
    simp [h]
  | cons p ps ih =>
    intro l rest h
    cases l with
    | nil => simp [dropPrefixCh] at h
    | cons c cs =>
      by_cases hpc : p = c
      · rw [dropPrefixCh, if_pos hpc] at h
        rw [List.cons_append, ← ih cs rest h, hpc]
      · rw [dropPrefixCh, if_neg hpc] at h
        exact absurd h (by simp)

/-- The left-to-right scan of Python `str.replace` with explicit fuel (one
unit per character position; a match consumes at least one character, so fuel
equal to the list length suffices): replace each non-overlapping occurrence
of `pat` and continue after the replacement. The program only ever calls
this with the nonempty pattern `test`; the empty pattern is modelled as the
identity. -/
def replaceAllFuel (pat rep : List Char) : Nat → List Char → List Char
  | _, [] => []
  | 0, c :: cs => c :: cs
  | fuel + 1, c :: cs =>
    match dropPrefixCh pat (c :: cs) with
    | some rest =>
      if pat.isEmpty then c :: cs
      else rep ++ replaceAllFuel pat rep fuel rest
    | none => c :: replaceAllFuel pat rep fuel cs

/-- Python `str.replace(pat, rep)` on character lists. -/
def replaceAll (pat rep l : List Char) : List Char :=
  replaceAllFuel pat rep l.length l

/-- Python `s.replace(pat, rep)`. -/
def pyReplace (s pat rep : String) : String :=
  String.mk (replaceAll pat.data rep.data s.data)

/-- The validation-root derivation of `predict`, line 110:
`args.dataset_dir.replace('test', 'validation')`. -/
def val_path (dataset_dir : String) : String :=
  pyReplace dataset_dir "test" "validation"

/-- The per-speaker data listing of `predict` (lines 106-116): the (video,
speech, noise) triples come from `list_data` on the given dataset root with
`max_files=10`; the clean speech paths are the speech component of
`list_data` on the derived validation root with `max_files=3`. `env` maps a
dataset root to the speaker's paired (video, speech) listing found there. -/
def predict_speaker_listing (env : String → List (String × String))
    (noise_files : List String) (dataset_dir : String)
    (d1 d2 d3 d4 : List Nat) :
    (List String × List String × List String) × List String :=
  let triples := list_data (env dataset_dir) noise_files (some 10) d1 d2
  let clean_speech_paths :=
    (list_data (env (val_path dataset_dir)) noise_files (some 3) d3 d4).2.1
  (triples, clean_speech_paths)

theorem list_data_length_le (pairs : List (String × String))
    (noise_files : List String) (k : Nat) (d1 d2 : List Nat) :
    (list_data pairs noise_files (some k) d1 d2).1.length ≤ k ∧
    (list_data pairs noise_files (some k) d1 d2).2.1.length ≤ k ∧
    (list_data pairs noise_files (some k) d1 d2).2.2.length ≤ k := by
  refine ⟨?_, ?_, ?_⟩
  · simp [list_data, avSubset, audioSubset, truncOpt, fancyIndex]
  · simp [list_data, avSubset, audioSubset, truncOpt, fancyIndex]
  · simp [list_data, avSubset, audioSubset, truncOpt, fancyIndex]

/-- C9: in `predict`, for every speaker, the clean-validation speech is
listed from the root derived from the dataset root by the fixed string
substitution replacing `test` with `validation`, bounded to at most 3 files,
while the (video, speech, noise) triples are listed from the original
dataset root bounded to at most 10 files. -/
theorem C9_predict_listing_sources_and_bounds
    (env : String → List (String × String)) (noise_files : List String)
    (dataset_dir : String) (d1 d2 d3 d4 : List Nat) :
    (predict_speaker_listing env noise_files dataset_dir d1 d2 d3 d4).1 =
      list_data (env dataset_dir) noise_files (some 10) d1 d2 ∧
    (predict_speaker_listing env noise_files dataset_dir d1 d2 d3 d4).2 =
      (list_data (env (pyReplace dataset_dir "test" "validation"))
        noise_files (some 3) d3 d4).2.1 ∧
    (predict_speaker_listing env noise_files dataset_dir d1 d2 d3 d4).2.length ≤ 3 ∧
    (predict_speaker_listing env noise_files dataset_dir d1 d2 d3 d4).1.1.length ≤ 10 ∧
    (predict_speaker_listing env noise_files dataset_dir d1 d2 d3 d4).1.2.1.length ≤ 10 ∧
    (predict_speaker_listing env noise_files dataset_dir d1 d2 d3 d4).1.2.2.length ≤ 10 := by
  refine ⟨rfl, rfl, ?_, ?_, ?_, ?_⟩
  · exact (list_data_length_le (env (val_path dataset_dir)) noise_files 3 d3 d4).2.1
  · exact (list_data_length_le (env dataset_dir) noise_files 10 d1 d2).1
  · exact (list_data_length_le (env dataset_dir) noise_files 10 d1 d2).2.1
  · exact (list_data_length_le (env dataset_dir) noise_files 10 d1 d2).2.2

theorem replaceAllFuel_no_occurrence (pat rep : List Char) :
    ∀ fuel l, ¬ List.IsInfix pat l → replaceAllFuel pat rep fuel l = l := by
  intro fuel
  induction fuel with
  | zero =>
    intro l _
    cases l <;> rfl
  | succ fuel ih =>
    intro l hinf
    cases l with
    | nil => rfl
    | cons c cs =>
      cases hd : dropPrefixCh pat (c :: cs) with
      | some rest =>
        exfalso
        exact hinf ⟨[], rest, by simp [← dropPrefixCh_some pat _ _ hd]⟩
      | none =>
        have hcs : ¬ List.IsInfix pat cs := by
          intro hc
          obtain ⟨s, t, hst⟩ := hc
          exact hinf ⟨c :: s, t, by simp [hst]⟩
        rw [replaceAllFuel, hd]
        rw [ih cs hcs]

/-- C10: if the substring `test` does not occur in the dataset root path,
`predict`'s validation-path derivation leaves the path unchanged, so the
clean-validation speech is drawn from the same root as the test triples; and
when `test` does occur, every occurrence anywhere in the path string is
replaced by `validation`, not only a whole directory segment. -/
theorem C10_val_path_substitution :
    (∀ d : String, ¬ List.IsInfix ("test".data) d.data → val_path d = d) ∧
    (∀ (env : String → List (String × String)) (noise_files : List String)
      (d1 d2 d3 d4 : List Nat) (d : String),
      ¬ List.IsInfix ("test".data) d.data →
      (predict_speaker_listing env noise_files d d1 d2 d3 d4).2 =
        (list_data (env d) noise_files (some 3) d3 d4).2.1) ∧
    val_path "data/latest/test_set" = "data/lavalidation/validation_set" ∧
    val_path "tests/testing" = "validations/validationing" := by
  have hid : ∀ d : String, ¬ List.IsInfix ("test".data) d.data → val_path d = d := by
    intro d h
    unfold val_path pyReplace replaceAll
    rw [replaceAllFuel_no_occurrence _ _ _ _ h]
  refine ⟨hid, ?_, by decide, by decide⟩
  intro env noise_files d1 d2 d3 d4 d h
  show (list_data (env (val_path d)) noise_files (some 3) d3 d4).2.1 =
    (list_data (env d) noise_files (some 3) d3 d4).2.1
  rw [hid d h]

theorem C10_val_path_substitution_witness :
    (¬ List.IsInfix ("test".data) ("data/clean_set" : String).data) ∧
    val_path "data/clean_set" = "data/clean_set" ∧
    (predict_speaker_listing (fun _ => [("v1", "a1")]) ["n1"]
        "data/clean_set" [0] [0] [0] [0]).2 =
      (list_data ((fun (_ : String) => [("v1", "a1")]) "data/clean_set")
        ["n1"] (some 3) [0] [0]).2.1 :=
  ⟨by decide,
   C10_val_path_substitution.1 "data/clean_set" (by decide),
   C10_val_path_substitution.2.1 (fun _ => [("v1", "a1")]) ["n1"]
     [0] [0] [0] [0] "data/clean_set" (by decide)⟩

end SpeechEnhancer
